import Mathlib

/-!
Shallow embedding of the in-memory data store of the college management
application (class `MemStorage` in `server/storage.ts`, row shapes from
`shared/schema.ts`), together with proofs of the specified properties.

Modelling conventions:
* a JS `Map<number, T>` is an insertion-ordered association list
  `List (Nat × T)`; `Map.get`/`Map.set`/`Map.delete`/`Map.has` and
  `Array.from(map.values())` are `mapGet`/`mapSet`/`mapDelete`/`mapHas`/
  `mapValues` below;
* integer ids are `Nat` (the per-type counters start at 1 and only grow),
  timestamps are `Int` (epoch milliseconds, as produced by `Date.getTime`);
* a TS `Partial<T>` is a record of `Option`-valued fields, and the spread
  merge `{ ...row, ...patch }` keeps a field of `row` exactly when the patch
  does not supply it;
* the fractional results of `getDashboardStats` are exact rationals, and
  `parseFloat(x.toFixed(1))` is rounding to one decimal, half up (`round1`);
* `Array.prototype.sort` (stable per ES2019) is the stable `List.mergeSort`,
  with the boolean order derived from the numeric comparator;
* the `async` methods contain no real suspension, so they are plain
  functions; methods that read `new Date()` take `now : Int` explicitly.
-/

namespace MemStorage

/-! ### The JS `Map` model -/

/-- `Map.prototype.get`: the value stored under key `k`, if any (a `Map`
holds at most one entry per key, so first match is the match). -/
def mapGet {ρ : Type} : List (Nat × ρ) → Nat → Option ρ
  | [], _ => none
  | p :: rest, k => if p.1 = k then some p.2 else mapGet rest k

/-- `Map.prototype.has`: whether some entry has key `k`. -/
def mapHas {ρ : Type} : List (Nat × ρ) → Nat → Bool
  | [], _ => false
  | p :: rest, k => if p.1 = k then true else mapHas rest k

/-- `Map.prototype.set`: overwrite the entry in place if the key is present
(keeping its insertion position), otherwise append a fresh entry at the end. -/
def mapSet {ρ : Type} : List (Nat × ρ) → Nat → ρ → List (Nat × ρ)
  | [], k, v => [(k, v)]
  | p :: rest, k, v => if p.1 = k then (k, v) :: rest else p :: mapSet rest k v

/-- `Map.prototype.delete` (the new map contents; the returned boolean is
taken separately from `mapHas`). -/
def mapDelete {ρ : Type} (l : List (Nat × ρ)) (k : Nat) : List (Nat × ρ) :=
  l.filter fun p => p.1 != k

/-- `Array.from(map.values())`: the values in insertion order. -/
def mapValues {ρ : Type} (l : List (Nat × ρ)) : List ρ :=
  l.map Prod.snd

/-! ### One entity table: a `Map` plus its `currentIds` counter -/

/-- One of the nine entity tables of `MemStorage`: its `Map` plus the
corresponding field of `this.currentIds`. -/
structure Table (ρ : Type) where
  rows : List (Nat × ρ)
  currentId : Nat
deriving Repr, DecidableEq

/-- A freshly constructed table: empty map, counter at 1. -/
def Table.empty {ρ : Type} : Table ρ := ⟨[], 1⟩

/-- `const id = this.currentIds.x++; const row = { ...data, id };
this.xs.set(id, row); return row;` — the common body of the nine
`create*` methods. `mk id` builds the stored row from the insert data. -/
def Table.create {ρ : Type} (t : Table ρ) (mk : Nat → ρ) : ρ × Table ρ :=
  let id := t.currentId
  let row := mk id
  (row, { rows := mapSet t.rows id row, currentId := id + 1 })

/-- `this.xs.get(id)` — the common body of the nine `get*` methods. -/
def Table.get {ρ : Type} (t : Table ρ) (id : Nat) : Option ρ :=
  mapGet t.rows id

/-- The common body of the nine `update*` methods: look up the row, return
`undefined` when absent, otherwise store and return the merged row.
`merge` is the entity's `row => ({ ...row, ...patch })`. -/
def Table.update {ρ : Type} (t : Table ρ) (id : Nat) (merge : ρ → ρ) :
    Option ρ × Table ρ :=
  match mapGet t.rows id with
  | none => (none, t)
  | some row =>
      let updated := merge row
      (some updated, { t with rows := mapSet t.rows id updated })

/-- `this.xs.delete(id)` — the common body of the nine `delete*` methods;
the boolean is whether an entry with that key existed. -/
def Table.delete {ρ : Type} (t : Table ρ) (id : Nat) : Bool × Table ρ :=
  (mapHas t.rows id, { t with rows := mapDelete t.rows id })

/-- `Array.from(this.xs.values())` — the common body of the `getAll*` methods. -/
def Table.values {ρ : Type} (t : Table ρ) : List ρ :=
  mapValues t.rows

/-! ### Row shapes (`shared/schema.ts`) -/

/-- A `users` row. -/
structure User where
  id : Nat
  username : String
  password : String
  email : String
  role : String
  name : String
  profileImage : Option String
deriving Repr, DecidableEq

/-- A `students` row. -/
structure Student where
  id : Nat
  userId : Nat
  studentId : String
  program : String
  yearLevel : Int
  status : String
  enrollmentDate : Int
deriving Repr, DecidableEq

/-- A `faculty` row. -/
structure Faculty where
  id : Nat
  userId : Nat
  facultyId : String
  department : String
  position : String
  joinDate : Int
  status : String
deriving Repr, DecidableEq

/-- A `courses` row. -/
structure Course where
  id : Nat
  code : String
  title : String
  description : Option String
  credits : Int
  department : String
  status : String
deriving Repr, DecidableEq

/-- A `course_assignments` row. -/
structure CourseAssignment where
  id : Nat
  courseId : Nat
  facultyId : Nat
  semester : String
  year : Int
deriving Repr, DecidableEq

/-- An `enrollments` row. -/
structure Enrollment where
  id : Nat
  studentId : Nat
  courseAssignmentId : Nat
  enrollmentDate : Int
  status : String
deriving Repr, DecidableEq

/-- An `attendance` row. -/
structure Attendance where
  id : Nat
  enrollmentId : Nat
  date : Int
  status : String
  notes : Option String
deriving Repr, DecidableEq

/-- A `grades` row. -/
structure Grade where
  id : Nat
  enrollmentId : Nat
  assignmentName : String
  score : Int
  maxScore : Int
  weight : Int
  date : Int
deriving Repr, DecidableEq

/-- An `events` row. -/
structure Event where
  id : Nat
  title : String
  description : Option String
  startDate : Int
  endDate : Int
  location : Option String
  type : String
deriving Repr, DecidableEq

/-- The `loginSchema` payload. -/
structure LoginCredentials where
  username : String
  password : String
deriving Repr, DecidableEq

/-- `Partial<User>`: each property either supplied or absent. -/
structure UserPatch where
  id : Option Nat := none
  username : Option String := none
  password : Option String := none
  email : Option String := none
  role : Option String := none
  name : Option String := none
  profileImage : Option (Option String) := none
deriving Repr, DecidableEq

/-- `{ ...user, ...userData }`: every property supplied by the patch
overrides, every property not supplied is kept from `user`. -/
def UserPatch.mergeInto (p : UserPatch) (u : User) : User :=
  { id := p.id.getD u.id,
    username := p.username.getD u.username,
    password := p.password.getD u.password,
    email := p.email.getD u.email,
    role := p.role.getD u.role,
    name := p.name.getD u.name,
    profileImage := p.profileImage.getD u.profileImage }

/-! ### The whole store -/

/-- The private state of `MemStorage`: nine tables, each bundling its map
with its `currentIds` counter. -/
structure Store where
  users : Table User
  students : Table Student
  faculty : Table Faculty
  courses : Table Course
  courseAssignments : Table CourseAssignment
  enrollments : Table Enrollment
  attendance : Table Attendance
  grades : Table Grade
  events : Table Event
deriving Repr, DecidableEq

/-- The state right after the constructor's map/counter initialisation
(the demo seed data is data, not logic, and is omitted). -/
def Store.empty : Store :=
  ⟨.empty, .empty, .empty, .empty, .empty, .empty, .empty, .empty, .empty⟩

/-- JS `String.prototype.toLowerCase()` on the ASCII usernames. -/
def lowercase (s : String) : String :=
  ⟨s.data.map Char.toLower⟩

/-! ### User operations -/

def getUser (s : Store) (id : Nat) : Option User :=
  s.users.get id

def getUserByUsername (s : Store) (username : String) : Option User :=
  s.users.values.find? fun u => lowercase u.username == lowercase username

def getUserByCredentials (s : Store) (credentials : LoginCredentials) : Option User :=
  s.users.values.find? fun u =>
    lowercase u.username == lowercase credentials.username &&
      u.password == credentials.password

/-- `createUser`; the `id` field of the argument is ignored and overwritten,
exactly as the spread `{ ...user, id }` would do if the insert payload
carried one. -/
def createUser (s : Store) (user : User) : User × Store :=
  let r := s.users.create fun id => { user with id }
  (r.1, { s with users := r.2 })

def updateUser (s : Store) (id : Nat) (userData : UserPatch) : Option User × Store :=
  let r := s.users.update id userData.mergeInto
  (r.1, { s with users := r.2 })

def deleteUser (s : Store) (id : Nat) : Bool × Store :=
  let r := s.users.delete id
  (r.1, { s with users := r.2 })

def getAllUsers (s : Store) : List User :=
  s.users.values

/-! ### Student operations -/

def getStudent (s : Store) (id : Nat) : Option Student :=
  s.students.get id

def createStudent (s : Store) (student : Student) : Student × Store :=
  let r := s.students.create fun id => { student with id }
  (r.1, { s with students := r.2 })

def deleteStudent (s : Store) (id : Nat) : Bool × Store :=
  let r := s.students.delete id
  (r.1, { s with students := r.2 })

def getAllStudents (s : Store) : List Student :=
  s.students.values

/-! ### Faculty operations -/

def getFaculty (s : Store) (id : Nat) : Option Faculty :=
  s.faculty.get id

def createFaculty (s : Store) (facultyData : Faculty) : Faculty × Store :=
  let r := s.faculty.create fun id => { facultyData with id }
  (r.1, { s with faculty := r.2 })

def getAllFaculty (s : Store) : List Faculty :=
  s.faculty.values

/-! ### Course operations -/

def getCourse (s : Store) (id : Nat) : Option Course :=
  s.courses.get id

def createCourse (s : Store) (course : Course) : Course × Store :=
  let r := s.courses.create fun id => { course with id }
  (r.1, { s with courses := r.2 })

def getAllCourses (s : Store) : List Course :=
  s.courses.values

/-! ### Course assignment operations -/

def getCourseAssignment (s : Store) (id : Nat) : Option CourseAssignment :=
  s.courseAssignments.get id

def createCourseAssignment (s : Store) (assignment : CourseAssignment) :
    CourseAssignment × Store :=
  let r := s.courseAssignments.create fun id => { assignment with id }
  (r.1, { s with courseAssignments := r.2 })

def deleteCourseAssignment (s : Store) (id : Nat) : Bool × Store :=
  let r := s.courseAssignments.delete id
  (r.1, { s with courseAssignments := r.2 })

def getCourseAssignmentsByCourse (s : Store) (courseId : Nat) : List CourseAssignment :=
  s.courseAssignments.values.filter fun a => a.courseId == courseId

/-! ### Enrollment operations -/

def createEnrollment (s : Store) (enrollment : Enrollment) : Enrollment × Store :=
  let r := s.enrollments.create fun id => { enrollment with id }
  (r.1, { s with enrollments := r.2 })

def getAllEnrollments (s : Store) : List Enrollment :=
  s.enrollments.values

def getEnrollmentsByStudent (s : Store) (studentId : Nat) : List Enrollment :=
  s.enrollments.values.filter fun e => e.studentId == studentId

def getEnrollmentsByCourseAssignment (s : Store) (courseAssignmentId : Nat) :
    List Enrollment :=
  s.enrollments.values.filter fun e => e.courseAssignmentId == courseAssignmentId

/-! ### Attendance / grade operations -/

def createAttendance (s : Store) (attendanceData : Attendance) : Attendance × Store :=
  let r := s.attendance.create fun id => { attendanceData with id }
  (r.1, { s with attendance := r.2 })

def getAllAttendance (s : Store) : List Attendance :=
  s.attendance.values

def getAttendanceByEnrollment (s : Store) (enrollmentId : Nat) : List Attendance :=
  s.attendance.values.filter fun a => a.enrollmentId == enrollmentId

def createGrade (s : Store) (grade : Grade) : Grade × Store :=
  let r := s.grades.create fun id => { grade with id }
  (r.1, { s with grades := r.2 })

def getGradesByEnrollment (s : Store) (enrollmentId : Nat) : List Grade :=
  s.grades.values.filter fun g => g.enrollmentId == enrollmentId

/-! ### Event operations -/

def createEvent (s : Store) (event : Event) : Event × Store :=
  let r := s.events.create fun id => { event with id }
  (r.1, { s with events := r.2 })

def getAllEvents (s : Store) : List Event :=
  s.events.values

/-- The boolean order induced by the comparator
`(a, b) => new Date(a.startDate).getTime() - new Date(b.startDate).getTime()`:
ascending by start date. -/
def eventLE (a b : Event) : Bool :=
  a.startDate ≤ b.startDate

/-- `getUpcomingEvents`: `new Date()` is the explicit `now`; filter to the
events starting strictly after it, then sort ascending by start date with
the stable sort. -/
def getUpcomingEvents (s : Store) (now : Int) : List Event :=
  ((getAllEvents s).filter fun e => now < e.startDate).mergeSort eventLE

/-! ### `getStudentDetails` -/

/-- One element of the `enrollments` array of a `getStudentDetails` result
(the object literal built inside the `enrollments.map` callback). -/
structure EnrollmentBlock where
  enrollment : Enrollment
  course : Option Course
  facultyMember : Option Faculty
  facultyName : Option String
  attendance : List Attendance
  grades : List Grade
  semester : String
  year : Int
deriving Repr, DecidableEq

/-- The `{ ...student, user, enrollments }` result of `getStudentDetails`. -/
structure StudentDetails where
  student : Student
  user : User
  enrollments : List EnrollmentBlock
deriving Repr, DecidableEq

/-- The block built for one enrollment whose course assignment resolved:
`course` and `faculty` are looked up (possibly absent), `facultyName` is
`facultyUser?.name`, and the attendance and grade rows of the enrollment
are attached. -/
def enrollmentBlock (s : Store) (e : Enrollment) (ca : CourseAssignment) :
    EnrollmentBlock :=
  let facultyMember := getFaculty s ca.facultyId
  { enrollment := e,
    course := getCourse s ca.courseId,
    facultyMember,
    facultyName := facultyMember.bind fun f => (getUser s f.userId).map User.name,
    attendance := getAttendanceByEnrollment s e.id,
    grades := getGradesByEnrollment s e.id,
    semester := ca.semester,
    year := ca.year }

/-- `getStudentDetails`: resolve the student, then its user (`null` if either
is missing), then map every enrollment of the student to its block — `null`
when the course assignment is missing — and keep the non-null blocks
(`courses.filter(Boolean)` is the `filterMap`). -/
def getStudentDetails (s : Store) (id : Nat) : Option StudentDetails :=
  match getStudent s id with
  | none => none
  | some student =>
    match getUser s student.userId with
    | none => none
    | some user =>
      let enrollmentList := getEnrollmentsByStudent s id
      let blocks := enrollmentList.filterMap fun e =>
        (getCourseAssignment s e.courseAssignmentId).map (enrollmentBlock s e)
      some { student, user, enrollments := blocks }

/-! ### `getDashboardStats` -/

/-- `parseFloat(x.toFixed(1))`: round to one decimal place, half up. -/
def round1 (q : ℚ) : ℚ :=
  ((⌊10 * q + 1 / 2⌋ : ℤ) : ℚ) / 10

/-- One `{ count, percentage }` pair of `courseStatistics`. -/
structure CourseStat where
  count : Nat
  percentage : ℚ
deriving Repr, DecidableEq

/-- The `courseStatistics` object. -/
structure CourseStatistics where
  active : CourseStat
  pending : CourseStat
  archived : CourseStat
deriving Repr, DecidableEq

/-- One entry of `popularCourses`. -/
structure PopularCourse where
  id : Nat
  code : String
  title : String
  studentCount : Nat
deriving Repr, DecidableEq

/-- The full `getDashboardStats` result object. -/
structure DashboardStats where
  totalStudents : Nat
  totalFaculty : Nat
  totalCourses : Nat
  activeCourses : Nat
  attendanceRate : ℚ
  courseStatistics : CourseStatistics
  popularCourses : List PopularCourse
deriving Repr, DecidableEq

/-- The `coursesWithEnrollments` intermediate array: every course annotated
with the sum, over its course assignments, of each assignment's enrollment
count (the `studentCount +=` loop). -/
def coursesWithEnrollments (s : Store) : List PopularCourse :=
  (getAllCourses s).map fun course =>
    let assignments := getCourseAssignmentsByCourse s course.id
    let studentCount :=
      (assignments.map fun a => (getEnrollmentsByCourseAssignment s a.id).length).sum
    { id := course.id, code := course.code, title := course.title, studentCount }

/-- The boolean order induced by the comparator
`(a, b) => b.studentCount - a.studentCount`: `a` may stay before `b`
exactly when the comparator is non-positive. -/
def studentCountLE (a b : PopularCourse) : Bool :=
  b.studentCount ≤ a.studentCount

/-- `getDashboardStats`: row counts, attendance rate, per-status course
counts and percentages (1-decimal rounding applied where the source applies
`toFixed(1)`), and the top-3 stable-descending popular courses. -/
def getDashboardStats (s : Store) : DashboardStats :=
  let students := getAllStudents s
  let facultyMembers := getAllFaculty s
  let courses := getAllCourses s
  let allAttendance := getAllAttendance s
  let totalAttendanceRecords := allAttendance.length
  let presentAttendance :=
    (allAttendance.filter fun record =>
      record.status == "present" || record.status == "late").length
  let attendanceRate : ℚ :=
    if 0 < totalAttendanceRecords then
      ((presentAttendance : ℚ) / (totalAttendanceRecords : ℚ)) * 100
    else 0
  let activeCourses := (courses.filter fun c => c.status == "active").length
  let pendingCourses := (courses.filter fun c => c.status == "pending").length
  let archivedCourses := (courses.filter fun c => c.status == "archived").length
  let totalCourses := courses.length
  let activeCoursesPercentage : ℚ :=
    if 0 < totalCourses then ((activeCourses : ℚ) / (totalCourses : ℚ)) * 100 else 0
  let pendingCoursesPercentage : ℚ :=
    if 0 < totalCourses then ((pendingCourses : ℚ) / (totalCourses : ℚ)) * 100 else 0
  let archivedCoursesPercentage : ℚ :=
    if 0 < totalCourses then ((archivedCourses : ℚ) / (totalCourses : ℚ)) * 100 else 0
  let popularCourses := ((coursesWithEnrollments s).mergeSort studentCountLE).take 3
  { totalStudents := students.length,
    totalFaculty := facultyMembers.length,
    totalCourses,
    activeCourses,
    attendanceRate := round1 attendanceRate,
    courseStatistics :=
      { active := ⟨activeCourses, round1 activeCoursesPercentage⟩,
        pending := ⟨pendingCourses, round1 pendingCoursesPercentage⟩,
        archived := ⟨archivedCourses, round1 archivedCoursesPercentage⟩ },
    popularCourses }

/-! ### Interleaved create/delete traces (for the identity claims) -/

/-- One user-table operation of a trace: an insert or a delete. -/
inductive UserOp where
  | create (user : User)
  | delete (id : Nat)
deriving Repr, DecidableEq

/-- Run one trace operation against the store. -/
def applyUserOp (s : Store) : UserOp → Store
  | .create u => (createUser s u).2
  | .delete id => (deleteUser s id).2

/-- The ids handed out by the `createUser` calls of a trace, in order. -/
def createdUserIds (s : Store) : List UserOp → List Nat
  | [] => []
  | .create u :: ops => (createUser s u).1.id :: createdUserIds (createUser s u).2 ops
  | .delete id :: ops => createdUserIds (deleteUser s id).2 ops


/-! ### Lemmas about the `Map` model -/

theorem mem_of_mapGet {ρ : Type} {l : List (Nat × ρ)} {k : Nat} {v : ρ}
    (h : mapGet l k = some v) : (k, v) ∈ l := by
  induction l with
  | nil => simp [mapGet] at h
  | cons p rest ih =>
    rcases p with ⟨a, b⟩
    by_cases hp : a = k
    · simp only [mapGet, hp, if_pos, Option.some_inj] at h
      simp [hp, h]
    · simp only [mapGet, hp, if_neg, if_false] at h
      exact List.mem_cons_of_mem _ (ih h)

theorem mapGet_eq_none_iff {ρ : Type} {l : List (Nat × ρ)} {k : Nat} :
    mapGet l k = none ↔ ∀ p ∈ l, p.1 ≠ k := by
  induction l with
  | nil => simp [mapGet]
  | cons p rest ih =>
    rcases p with ⟨a, b⟩
    by_cases hp : a = k
    · simp [mapGet, hp]
    · simp [mapGet, hp, ih]

theorem mapHas_eq_isSome {ρ : Type} (l : List (Nat × ρ)) (k : Nat) :
    mapHas l k = (mapGet l k).isSome := by
  induction l with
  | nil => rfl
  | cons p rest ih =>
    by_cases hp : p.1 = k
    · simp [mapHas, mapGet, hp]
    · simp [mapHas, mapGet, hp, ih]

theorem mapGet_mapSet_self {ρ : Type} (l : List (Nat × ρ)) (k : Nat) (v : ρ) :
    mapGet (mapSet l k v) k = some v := by
  induction l with
  | nil => simp [mapSet, mapGet]
  | cons p rest ih =>
    by_cases hp : p.1 = k
    · simp [mapSet, mapGet, hp]
    · simp [mapSet, mapGet, hp, ih]

theorem mapGet_mapSet_ne {ρ : Type} (l : List (Nat × ρ)) {j k : Nat} (v : ρ)
    (h : j ≠ k) : mapGet (mapSet l k v) j = mapGet l j := by
  have hkj : ¬ k = j := Ne.symm h
  induction l with
  | nil => simp [mapSet, mapGet, hkj]
  | cons p rest ih =>
    by_cases hp : p.1 = k
    · have hj : ¬ p.1 = j := by rw [hp]; exact hkj
      simp [mapSet, mapGet, hp, hj, hkj]
    · by_cases hpj : p.1 = j
      · simp [mapSet, mapGet, hp, hpj, h, hkj]
      · simp [mapSet, mapGet, hp, hpj, h, hkj, ih]

theorem mem_mapSet {ρ : Type} {l : List (Nat × ρ)} {k : Nat} {v : ρ} {p : Nat × ρ}
    (h : p ∈ mapSet l k v) : p = (k, v) ∨ p ∈ l := by
  induction l with
  | nil => simp [mapSet] at h; simp [h]
  | cons q rest ih =>
    by_cases hq : q.1 = k
    · simp only [mapSet, hq, if_pos, List.mem_cons] at h
      rcases h with h | h
      · exact .inl h
      · exact .inr (List.mem_cons_of_mem _ h)
    · simp only [mapSet, hq, if_neg, if_false, List.mem_cons] at h
      rcases h with h | h
      · exact .inr (h ▸ List.mem_cons_self _ _)
      · rcases ih h with h' | h'
        · exact .inl h'
        · exact .inr (List.mem_cons_of_mem _ h')

theorem mapSet_of_not_has {ρ : Type} {l : List (Nat × ρ)} {k : Nat} (v : ρ)
    (h : mapHas l k = false) : mapSet l k v = l ++ [(k, v)] := by
  induction l with
  | nil => simp [mapSet]
  | cons p rest ih =>
    by_cases hp : p.1 = k
    · simp [mapHas, hp] at h
    · simp only [mapHas, hp, if_neg, if_false] at h
      simp [mapSet, hp, ih h]

theorem mem_mapDelete {ρ : Type} {l : List (Nat × ρ)} {k : Nat} {p : Nat × ρ}
    (h : p ∈ mapDelete l k) : p ∈ l ∧ p.1 ≠ k := by
  unfold mapDelete at h
  refine ⟨List.mem_of_mem_filter h, ?_⟩
  have := List.of_mem_filter h
  simpa using this

theorem mapGet_mapDelete_self {ρ : Type} (l : List (Nat × ρ)) (k : Nat) :
    mapGet (mapDelete l k) k = none := by
  rw [mapGet_eq_none_iff]
  intro p hp
  exact (mem_mapDelete hp).2

theorem mapGet_mapDelete_ne {ρ : Type} (l : List (Nat × ρ)) {j k : Nat}
    (h : j ≠ k) : mapGet (mapDelete l k) j = mapGet l j := by
  have hkj : ¬ k = j := Ne.symm h
  induction l with
  | nil => rfl
  | cons p rest ih =>
    by_cases hpk : p.1 = k
    · have hpj : ¬ p.1 = j := by rw [hpk]; exact hkj
      simpa [mapDelete, List.filter_cons, hpk, mapGet, hpj, h, hkj] using ih
    · by_cases hpj : p.1 = j
      · simp [mapDelete, List.filter_cons, hpk, mapGet, hpj, h, hkj]
      · simpa [mapDelete, List.filter_cons, hpk, mapGet, hpj, h, hkj] using ih

theorem mapHas_mapDelete_self {ρ : Type} (l : List (Nat × ρ)) (k : Nat) :
    mapHas (mapDelete l k) k = false := by
  rw [mapHas_eq_isSome, mapGet_mapDelete_self]
  rfl

theorem mapDelete_of_not_has {ρ : Type} {l : List (Nat × ρ)} {k : Nat}
    (h : mapHas l k = false) : mapDelete l k = l := by
  unfold mapDelete
  apply List.filter_eq_self.mpr
  intro p hp
  rw [mapHas_eq_isSome] at h
  have hn : mapGet l k = none := by
    cases he : mapGet l k with
    | none => rfl
    | some v => rw [he] at h; simp at h
  rw [mapGet_eq_none_iff] at hn
  simpa using hn p hp

/-! ### Sample rows and concrete stores for the closed scenarios -/

/-- The seeded admin user of `initializeData` (profile image dropped); the
`id` field is a placeholder that every `create*` overwrites. -/
def sampleUser : User :=
  { id := 0, username := "Admin", password := "admin123", email := "admin@college.edu",
    role := "admin", name := "John Admin", profileImage := none }

/-- A second user for duplicate/frame scenarios. -/
def sampleUser2 : User :=
  { id := 0, username := "bob", password := "pw", email := "bob@college.edu",
    role := "student", name := "Bob", profileImage := none }

/-- A store holding exactly `sampleUser` (under id 1). -/
def storeOneUser : Store := (createUser Store.empty sampleUser).2

/-- A store holding `sampleUser` (id 1) and `sampleUser2` (id 2). -/
def storeTwoUsers : Store := (createUser storeOneUser sampleUser2).2

/-! ### Claim C8 — delete semantics -/

/-- C8: for every entity type (all nine `delete*` methods are the shared
`Table.delete`), `delete(id)` returns `true` exactly when a row with that id
existed, and removes it; deleting the same id twice returns `false` the
second time; deleting a nonexistent id leaves all state unchanged.  Stated
generically over any table, and at the store level for the cited
`deleteUser`. -/
theorem C8_delete_semantics :
    (∀ (ρ : Type) (t : Table ρ) (k : Nat),
      ((t.delete k).1 = true ↔ (t.get k).isSome = true) ∧
      (t.delete k).2.get k = none ∧
      ((t.delete k).2.delete k).1 = false ∧
      (t.get k = none → (t.delete k).2 = t)) ∧
    (∀ (s : Store) (id : Nat),
      ((deleteUser s id).1 = true ↔ (getUser s id).isSome = true) ∧
      getUser (deleteUser s id).2 id = none ∧
      (deleteUser (deleteUser s id).2 id).1 = false ∧
      (∀ j, j ≠ id → getUser (deleteUser s id).2 j = getUser s j) ∧
      (getUser s id = none → (deleteUser s id).2 = s)) := by
  have htab : ∀ (ρ : Type) (t : Table ρ) (k : Nat),
      ((t.delete k).1 = true ↔ (t.get k).isSome = true) ∧
      (t.delete k).2.get k = none ∧
      ((t.delete k).2.delete k).1 = false ∧
      (t.get k = none → (t.delete k).2 = t) := by
    intro ρ t k
    refine ⟨?_, ?_, ?_, ?_⟩
    · show mapHas t.rows k = true ↔ _
      rw [mapHas_eq_isSome]
      exact Iff.rfl
    · show mapGet (mapDelete t.rows k) k = none
      exact mapGet_mapDelete_self _ _
    · show mapHas (mapDelete t.rows k) k = false
      exact mapHas_mapDelete_self _ _
    · intro hn
      have hh : mapHas t.rows k = false := by
        rw [mapHas_eq_isSome]
        show (mapGet t.rows k).isSome = false
        rw [show mapGet t.rows k = t.get k from rfl, hn]
        rfl
      show ({ t with rows := mapDelete t.rows k } : Table ρ) = t
      rw [mapDelete_of_not_has hh]
  refine ⟨htab, ?_⟩
  intro s id
  refine ⟨(htab _ s.users id).1, (htab _ s.users id).2.1, (htab _ s.users id).2.2.1, ?_, ?_⟩
  · intro j hj
    show mapGet (mapDelete s.users.rows id) j = mapGet s.users.rows j
    exact mapGet_mapDelete_ne _ hj
  · intro hn
    show ({ s with users := (s.users.delete id).2 } : Store) = s
    rw [(htab _ s.users id).2.2.2 hn]

/-- Closed witness for C8 at a concrete store: id 1 exists, double delete,
and a delete of the nonexistent id 5 leaves the store unchanged. -/
theorem C8_delete_semantics_witness :
    (deleteUser storeOneUser 1).1 = true ∧
    (deleteUser (deleteUser storeOneUser 1).2 1).1 = false ∧
    getUser (deleteUser storeOneUser 1).2 2 = getUser storeOneUser 2 ∧
    (deleteUser storeOneUser 5).2 = storeOneUser := by
  refine ⟨?_, ?_, ?_, ?_⟩
  · exact (C8_delete_semantics.2 storeOneUser 1).1.mpr (by decide)
  · exact (C8_delete_semantics.2 storeOneUser 1).2.2.1
  · exact (C8_delete_semantics.2 storeOneUser 1).2.2.2.1 2 (by decide)
  · exact (C8_delete_semantics.2 storeOneUser 5).2.2.2.2 (by decide)

/-! ### Claim C5 — merge semantics of update -/

/-- C5: `updateUser(id, patch)` on an existing row stores and returns the
merged row, in which exactly the supplied fields change (a field absent from
the patch keeps its prior value, a supplied field takes the supplied value);
every other row of the users table and all eight other tables are unchanged.
On a missing id it returns `undefined` and changes nothing.  All nine
`update*` methods are the shared `Table.update`; `updateUser` is the cited
representative, with the field accounting of `Partial<User>`. -/
theorem C5_update_merge_semantics (s : Store) (id : Nat) (p : UserPatch) :
    (getUser s id = none → updateUser s id p = (none, s)) ∧
    (∀ u, getUser s id = some u →
      (updateUser s id p).1 = some (p.mergeInto u) ∧
      getUser (updateUser s id p).2 id = some (p.mergeInto u) ∧
      ((p.username = none → (p.mergeInto u).username = u.username) ∧
        ∀ x, p.username = some x → (p.mergeInto u).username = x) ∧
      ((p.password = none → (p.mergeInto u).password = u.password) ∧
        ∀ x, p.password = some x → (p.mergeInto u).password = x) ∧
      ((p.email = none → (p.mergeInto u).email = u.email) ∧
        ∀ x, p.email = some x → (p.mergeInto u).email = x) ∧
      ((p.role = none → (p.mergeInto u).role = u.role) ∧
        ∀ x, p.role = some x → (p.mergeInto u).role = x) ∧
      ((p.name = none → (p.mergeInto u).name = u.name) ∧
        ∀ x, p.name = some x → (p.mergeInto u).name = x) ∧
      ((p.profileImage = none → (p.mergeInto u).profileImage = u.profileImage) ∧
        ∀ x, p.profileImage = some x → (p.mergeInto u).profileImage = x) ∧
      ((p.id = none → (p.mergeInto u).id = u.id) ∧
        ∀ x, p.id = some x → (p.mergeInto u).id = x) ∧
      (∀ j, j ≠ id → getUser (updateUser s id p).2 j = getUser s j) ∧
      (updateUser s id p).2.students = s.students ∧
      (updateUser s id p).2.faculty = s.faculty ∧
      (updateUser s id p).2.courses = s.courses ∧
      (updateUser s id p).2.courseAssignments = s.courseAssignments ∧
      (updateUser s id p).2.enrollments = s.enrollments ∧
      (updateUser s id p).2.attendance = s.attendance ∧
      (updateUser s id p).2.grades = s.grades ∧
      (updateUser s id p).2.events = s.events) := by
  constructor
  · intro hn
    have hn' : mapGet s.users.rows id = none := hn
    unfold updateUser Table.update
    rw [hn']
  · intro u hu
    have hu' : mapGet s.users.rows id = some u := hu
    have hup : updateUser s id p =
        (some (p.mergeInto u),
          { s with users :=
              { s.users with rows := mapSet s.users.rows id (p.mergeInto u) } }) := by
      unfold updateUser Table.update
      rw [hu']
    refine ⟨by rw [hup], ?_, ?_, ?_, ?_, ?_, ?_, ?_, ?_, ?_, ?_, ?_, ?_, ?_, ?_, ?_, ?_, ?_⟩
    · rw [hup]
      exact mapGet_mapSet_self _ _ _
    · exact ⟨fun h => by simp [UserPatch.mergeInto, h], fun x h => by simp [UserPatch.mergeInto, h]⟩
    · exact ⟨fun h => by simp [UserPatch.mergeInto, h], fun x h => by simp [UserPatch.mergeInto, h]⟩
    · exact ⟨fun h => by simp [UserPatch.mergeInto, h], fun x h => by simp [UserPatch.mergeInto, h]⟩
    · exact ⟨fun h => by simp [UserPatch.mergeInto, h], fun x h => by simp [UserPatch.mergeInto, h]⟩
    · exact ⟨fun h => by simp [UserPatch.mergeInto, h], fun x h => by simp [UserPatch.mergeInto, h]⟩
    · exact ⟨fun h => by simp [UserPatch.mergeInto, h], fun x h => by simp [UserPatch.mergeInto, h]⟩
    · exact ⟨fun h => by simp [UserPatch.mergeInto, h], fun x h => by simp [UserPatch.mergeInto, h]⟩
    · intro j hj
      rw [hup]
      exact mapGet_mapSet_ne _ _ hj
    · rw [hup]
    · rw [hup]
    · rw [hup]
    · rw [hup]
    · rw [hup]
    · rw [hup]
    · rw [hup]
    · rw [hup]

/-- A patch supplying only `role`, for the update witness. -/
def rolePatch : UserPatch := { role := some "faculty" }

/-- Closed witness for C5: updating id 1 of the one-user store with a
role-only patch changes the role, keeps the username, leaves id 2 alone, and
updating the missing id 5 returns `undefined` and changes nothing. -/
theorem C5_update_merge_semantics_witness :
    (updateUser storeOneUser 1 rolePatch).1 =
      some (rolePatch.mergeInto { sampleUser with id := 1 }) ∧
    (rolePatch.mergeInto { sampleUser with id := 1 }).role = "faculty" ∧
    (rolePatch.mergeInto { sampleUser with id := 1 }).username = sampleUser.username ∧
    getUser (updateUser storeOneUser 1 rolePatch).2 2 = getUser storeOneUser 2 ∧
    updateUser storeOneUser 5 rolePatch = (none, storeOneUser) := by
  have hu : getUser storeOneUser 1 = some { sampleUser with id := 1 } := by decide
  have h := (C5_update_merge_semantics storeOneUser 1 rolePatch).2 _ hu
  refine ⟨h.1, ?_, ?_, ?_, ?_⟩
  · exact (h.2.2.2.2.2.1).2 "faculty" rfl
  · exact (h.2.2.1).1 rfl
  · exact h.2.2.2.2.2.2.2.2.2.1 2 (by decide)
  · exact (C5_update_merge_semantics storeOneUser 5 rolePatch).1 (by decide)

/-! ### Claim C4 — identity monotonicity -/

/-- Whether a trace operation is an insert. -/
def UserOp.isCreate : UserOp → Bool
  | .create _ => true
  | .delete _ => false

theorem createdUserIds_lower_bound (ops : List UserOp) :
    ∀ (s : Store), ∀ i ∈ createdUserIds s ops, s.users.currentId ≤ i := by
  induction ops with
  | nil => intro s i hi; simp [createdUserIds] at hi
  | cons op rest ih =>
    intro s i hi
    cases op with
    | create u =>
      simp only [createdUserIds, List.mem_cons] at hi
      rcases hi with h | h
      · subst h
        exact Nat.le_refl _
      · have h2 := ih _ i h
        have hc : (createUser s u).2.users.currentId = s.users.currentId + 1 := rfl
        rw [hc] at h2
        exact Nat.le_of_succ_le h2
    | delete id =>
      simp only [createdUserIds] at hi
      have h2 := ih _ i hi
      have hc : (deleteUser s id).2.users.currentId = s.users.currentId := rfl
      rw [hc] at h2
      exact h2

/-- C4: any interleaving of `createUser` inserts and `deleteUser` deletes
assigns one id per insert, and those ids are strictly increasing (hence
pairwise distinct, and — being at least the counter value, which deletes
never lower — never a reused or recycled id).  All nine entity types share
`Table.create`/`Table.delete`, with `createUser`/`deleteUser` the cited
representatives. -/
theorem C4_identity_monotonic (s : Store) (ops : List UserOp) :
    (createdUserIds s ops).Pairwise (· < ·) ∧
    (createdUserIds s ops).length = ops.countP (fun op => op.isCreate) ∧
    (∀ i ∈ createdUserIds s ops, s.users.currentId ≤ i) := by
  refine ⟨?_, ?_, createdUserIds_lower_bound ops s⟩
  · induction ops generalizing s with
    | nil => simp [createdUserIds]
    | cons op rest ih =>
      cases op with
      | create u =>
        simp only [createdUserIds]
        refine List.Pairwise.cons ?_ (ih _)
        intro j hj
        have := createdUserIds_lower_bound rest _ j hj
        have hc : (createUser s u).2.users.currentId = s.users.currentId + 1 := rfl
        rw [hc] at this
        exact Nat.lt_of_succ_le this
      | delete id =>
        simp only [createdUserIds]
        exact ih _
  · induction ops generalizing s with
    | nil => simp [createdUserIds]
    | cons op rest ih =>
      cases op with
      | create u =>
        simp [createdUserIds, List.countP_cons, UserOp.isCreate, ih]
      | delete id =>
        simp [createdUserIds, List.countP_cons, UserOp.isCreate, ih]

/-- Closed witness for C4: a create/delete/create trace from the empty store
hands out ids 1 then 2 — increasing, distinct, id 1 not recycled. -/
theorem C4_identity_monotonic_witness :
    createdUserIds Store.empty
        [UserOp.create sampleUser, UserOp.delete 1, UserOp.create sampleUser2] = [1, 2] ∧
    Store.empty.users.currentId ≤ 1 := by
  have h := C4_identity_monotonic Store.empty
    [UserOp.create sampleUser, UserOp.delete 1, UserOp.create sampleUser2]
  exact ⟨by decide, h.2.2 1 (by decide)⟩

/-! ### Claim C7 — the store never enforces uniqueness -/

/-- Every key already stored is below the counter — true of every reachable
table state, since keys are only ever assigned from the counter. -/
def Table.KeysBound {ρ : Type} (t : Table ρ) : Prop :=
  ∀ p ∈ t.rows, p.1 < t.currentId

theorem mapHas_currentId_eq_false {ρ : Type} {t : Table ρ} (h : t.KeysBound) :
    mapHas t.rows t.currentId = false := by
  rw [mapHas_eq_isSome]
  cases he : mapGet t.rows t.currentId with
  | none => rfl
  | some v =>
    exact absurd (h _ (mem_of_mapGet he)) (by simp)

/-- On any reachable table, a create appends its new row at the end of the
value sequence (it never overwrites and never fails). -/
theorem Table.values_create {ρ : Type} {t : Table ρ} (mk : Nat → ρ)
    (h : t.KeysBound) : (t.create mk).2.values = t.values ++ [mk t.currentId] := by
  show mapValues (mapSet t.rows t.currentId (mk t.currentId)) = _
  rw [mapSet_of_not_has _ (mapHas_currentId_eq_false h)]
  simp [mapValues, Table.values]

/-- A course for the duplicate scenarios. -/
def sampleCourse : Course :=
  { id := 0, code := "CS101", title := "Introduction to Computer Science",
    description := none, credits := 3, department := "Computer Science",
    status := "active" }

/-- A student profile for the duplicate scenarios. -/
def sampleStudent : Student :=
  { id := 0, userId := 1, studentId := "STU1001", program := "Computer Science",
    yearLevel := 3, status := "active", enrollmentDate := 0 }

/-- A faculty profile for the duplicate scenarios. -/
def sampleFaculty : Faculty :=
  { id := 0, userId := 1, facultyId := "FAC1001", department := "Computer Science",
    position := "Professor", joinDate := 0, status := "active" }

/-- C7: on any reachable store (keys below the counters), inserting a user /
student / faculty / course always succeeds and adds one more stored row
carrying the given username / studentId / facultyId / code — so a duplicate
secondary key yields a second row with that key, never a failure. -/
theorem C7_no_uniqueness_enforcement (s : Store) (u : User) (st : Student)
    (f : Faculty) (c : Course) (hu : s.users.KeysBound) (hst : s.students.KeysBound)
    (hf : s.faculty.KeysBound) (hc : s.courses.KeysBound) :
    ((getAllUsers (createUser s u).2).countP (fun x => x.username == u.username)
      = (getAllUsers s).countP (fun x => x.username == u.username) + 1) ∧
    (1 ≤ (getAllUsers s).countP (fun x => x.username == u.username) →
      2 ≤ (getAllUsers (createUser s u).2).countP (fun x => x.username == u.username)) ∧
    ((getAllStudents (createStudent s st).2).countP (fun x => x.studentId == st.studentId)
      = (getAllStudents s).countP (fun x => x.studentId == st.studentId) + 1) ∧
    ((getAllFaculty (createFaculty s f).2).countP (fun x => x.facultyId == f.facultyId)
      = (getAllFaculty s).countP (fun x => x.facultyId == f.facultyId) + 1) ∧
    ((getAllCourses (createCourse s c).2).countP (fun x => x.code == c.code)
      = (getAllCourses s).countP (fun x => x.code == c.code) + 1) := by
  have h1 : getAllUsers (createUser s u).2
      = getAllUsers s ++ [{ u with id := s.users.currentId }] :=
    Table.values_create (fun id => ({ u with id } : User)) hu
  have h2 : getAllStudents (createStudent s st).2
      = getAllStudents s ++ [{ st with id := s.students.currentId }] :=
    Table.values_create (fun id => ({ st with id } : Student)) hst
  have h3 : getAllFaculty (createFaculty s f).2
      = getAllFaculty s ++ [{ f with id := s.faculty.currentId }] :=
    Table.values_create (fun id => ({ f with id } : Faculty)) hf
  have h4 : getAllCourses (createCourse s c).2
      = getAllCourses s ++ [{ c with id := s.courses.currentId }] :=
    Table.values_create (fun id => ({ c with id } : Course)) hc
  refine ⟨?_, ?_, ?_, ?_, ?_⟩
  · rw [h1, List.countP_append]; simp
  · intro hge
    have heq : (getAllUsers (createUser s u).2).countP (fun x => x.username == u.username)
        = (getAllUsers s).countP (fun x => x.username == u.username) + 1 := by
      rw [h1, List.countP_append]; simp
    omega
  · rw [h2, List.countP_append]; simp
  · rw [h3, List.countP_append]; simp
  · rw [h4, List.countP_append]; simp

/-- Closed witness for C7: inserting `sampleUser` a second time yields two
stored rows with username "Admin". -/
theorem C7_no_uniqueness_enforcement_witness :
    2 ≤ (getAllUsers (createUser storeOneUser sampleUser).2).countP
        (fun x => x.username == sampleUser.username) := by
  have h := C7_no_uniqueness_enforcement storeOneUser sampleUser sampleStudent
    sampleFaculty sampleCourse (by unfold Table.KeysBound; decide)
    (by unfold Table.KeysBound; decide) (by unfold Table.KeysBound; decide)
    (by unfold Table.KeysBound; decide)
  exact h.2.1 (by decide)

/-! ### Claim C10 — the key-equals-id invariant (corrected) -/

/-- Every stored user row's `id` field equals the map key it is stored under. -/
def UsersKeyConsistent (s : Store) : Prop :=
  ∀ p ∈ s.users.rows, p.2.id = p.1

/-- The patch of the C10 counterexample: a `Partial<User>` supplying `id`. -/
def idPatch : UserPatch := { id := some 42 }

/-- C10 counterexample: `updateUser(1, { id: 42 })` on the one-user store
leaves a row stored under key 1 whose `id` field is 42 — the spread
`{ ...user, ...userData }` lets a patch overwrite `id`, so update does not
preserve the key-equals-id invariant when the patch contains an `id`. -/
theorem C10_key_invariant_counterexample :
    ((updateUser storeOneUser 1 idPatch).2.users.rows.map fun p => (p.1, p.2.id))
      = [(1, 42)] ∧ (1 : Nat) ≠ 42 := by decide

/-- C10 amended: the key-equals-id invariant is established by `createUser`,
preserved by `deleteUser`, and preserved by `updateUser` whenever the
supplied patch does not contain an `id` field (the counterexample shows the
original claim fails when it does). -/
theorem C10_amended_key_invariant (s : Store) :
    (∀ u, UsersKeyConsistent s → UsersKeyConsistent (createUser s u).2) ∧
    (∀ id, UsersKeyConsistent s → UsersKeyConsistent (deleteUser s id).2) ∧
    (∀ id p, p.id = none → UsersKeyConsistent s →
      UsersKeyConsistent (updateUser s id p).2) := by
  refine ⟨?_, ?_, ?_⟩
  · intro u h q hq
    have hq' : q ∈ mapSet s.users.rows s.users.currentId
        { u with id := s.users.currentId } := hq
    rcases mem_mapSet hq' with he | he
    · simp [he]
    · exact h _ he
  · intro id h q hq
    exact h _ (mem_mapDelete hq).1
  · intro id p hid h q hq
    cases hg : mapGet s.users.rows id with
    | none =>
      have hsame : (updateUser s id p).2 = s := by
        unfold updateUser Table.update
        rw [hg]
      rw [hsame] at hq
      exact h _ hq
    | some u =>
      have hrows : (updateUser s id p).2.users.rows
          = mapSet s.users.rows id (p.mergeInto u) := by
        unfold updateUser Table.update
        rw [hg]
      rw [hrows] at hq
      rcases mem_mapSet hq with he | he
      · have hu : u.id = id := h _ (mem_of_mapGet hg)
        simp [he, UserPatch.mergeInto, hid, hu]
      · exact h _ he

/-- Closed witness for the amended C10 at the one-user store. -/
theorem C10_amended_key_invariant_witness :
    UsersKeyConsistent (createUser storeOneUser sampleUser2).2 ∧
    UsersKeyConsistent (deleteUser storeOneUser 1).2 ∧
    UsersKeyConsistent (updateUser storeOneUser 1 rolePatch).2 := by
  have h := C10_amended_key_invariant storeOneUser
  have hcons : UsersKeyConsistent storeOneUser := by
    unfold UsersKeyConsistent
    decide
  exact ⟨h.1 sampleUser2 hcons, h.2.1 1 hcons, h.2.2 1 rolePatch rfl hcons⟩

/-! ### Claim C6 — case-insensitive lookup and credential check -/

/-- C6: `getUserByUsername` returns a user iff its username matches the
query up to `toLowerCase`, `getUserByCredentials` additionally requires the
password to match by exact equality, both return `undefined` exactly when no
user matches, and the spec's Admin/admin scenario holds. -/
theorem C6_user_lookup (s : Store) (username : String) (cred : LoginCredentials) :
    (∀ u, getUserByUsername s username = some u →
      u ∈ getAllUsers s ∧ lowercase u.username = lowercase username) ∧
    (getUserByUsername s username = none ↔
      ∀ u ∈ getAllUsers s, lowercase u.username ≠ lowercase username) ∧
    (∀ u, getUserByCredentials s cred = some u →
      u ∈ getAllUsers s ∧ lowercase u.username = lowercase cred.username ∧
        u.password = cred.password) ∧
    (getUserByCredentials s cred = none ↔
      ∀ u ∈ getAllUsers s,
        ¬(lowercase u.username = lowercase cred.username ∧
          u.password = cred.password)) ∧
    getUserByUsername storeOneUser "admin" = some { sampleUser with id := 1 } := by
  refine ⟨?_, ?_, ?_, ?_, by decide⟩
  · intro u hu
    have hu' : s.users.values.find?
        (fun u => lowercase u.username == lowercase username) = some u := hu
    refine ⟨List.mem_of_find?_eq_some hu', ?_⟩
    have := List.find?_some hu'
    simpa using this
  · show s.users.values.find? _ = none ↔ _
    rw [List.find?_eq_none]
    constructor
    · intro h u hu
      simpa using h u hu
    · intro h u hu
      simpa using h u hu
  · intro u hu
    have hu' : s.users.values.find?
        (fun u => lowercase u.username == lowercase cred.username &&
          u.password == cred.password) = some u := hu
    have hp := List.find?_some hu'
    simp only [Bool.and_eq_true, beq_iff_eq] at hp
    exact ⟨List.mem_of_find?_eq_some hu', hp.1, hp.2⟩
  · show s.users.values.find? _ = none ↔ _
    rw [List.find?_eq_none]
    constructor
    · intro h u hu
      simpa using h u hu
    · intro h u hu
      simpa using h u hu

/-- Closed witness for C6: the positive direction at the one-user store, and
a wrong password yields absence. -/
theorem C6_user_lookup_witness :
    ({ sampleUser with id := 1 } : User) ∈ getAllUsers storeOneUser ∧
    lowercase ({ sampleUser with id := 1 } : User).username = lowercase "admin" ∧
    getUserByCredentials storeOneUser
      { username := "admin", password := "wrong" } = none := by
  have h := C6_user_lookup storeOneUser "admin"
    { username := "admin", password := "wrong" }
  have h1 := h.1 { sampleUser with id := 1 } (by decide)
  exact ⟨h1.1, h1.2, h.2.2.2.1.mpr (by decide)⟩

/-! ### Claim C9 — upcoming events -/

theorem eventLE_trans : ∀ a b c : Event, eventLE a b → eventLE b c → eventLE a c := by
  intro a b c
  simp only [eventLE, decide_eq_true_eq]
  omega

theorem eventLE_total : ∀ a b : Event, eventLE a b || eventLE b a := by
  intro a b
  simp only [eventLE, Bool.or_eq_true, decide_eq_true_eq]
  omega

/-- C9: `getUpcomingEvents` returns exactly the events starting strictly
after `now` (a permutation of that filter of the event table — every
returned event is a stored future event, every stored future event is
returned), sorted ascending by start date. -/
theorem C9_upcoming_events (s : Store) (now : Int) :
    (getUpcomingEvents s now).Pairwise (fun a b => a.startDate ≤ b.startDate) ∧
    (getUpcomingEvents s now).Perm
      ((getAllEvents s).filter fun e => now < e.startDate) ∧
    (∀ e ∈ getUpcomingEvents s now, now < e.startDate ∧ e ∈ getAllEvents s) ∧
    (∀ e ∈ getAllEvents s, now < e.startDate → e ∈ getUpcomingEvents s now) := by
  refine ⟨?_, ?_, ?_, ?_⟩
  · have h := List.sorted_mergeSort eventLE_trans eventLE_total
      ((getAllEvents s).filter fun e => now < e.startDate)
    exact h.imp fun hab => by simpa [eventLE] using hab
  · exact List.mergeSort_perm _ _
  · intro e he
    have he' : e ∈ (getAllEvents s).filter fun e => now < e.startDate := by
      have := List.mem_mergeSort.mp he
      exact this
    have := List.mem_filter.mp he'
    exact ⟨by simpa using this.2, this.1⟩
  · intro e he hnow
    show e ∈ List.mergeSort _ _
    rw [List.mem_mergeSort, List.mem_filter]
    exact ⟨he, by simpa using hnow⟩

/-- A future and a past event for the C9 witness (relative to `now = 100`). -/
def eventSoon : Event :=
  { id := 0, title := "Science Exhibition", description := none,
    startDate := 250, endDate := 260, location := none, type := "academic" }

/-- A later future event for the C9 witness. -/
def eventLater : Event :=
  { id := 0, title := "Faculty Meeting", description := none,
    startDate := 300, endDate := 310, location := none, type := "administrative" }

/-- A past event for the C9 witness. -/
def eventPast : Event :=
  { id := 0, title := "Enrollment Deadline", description := none,
    startDate := 50, endDate := 60, location := none, type := "administrative" }

/-- A store holding the three witness events (later, past, soon — creation
order chosen so that sorting actually reorders). -/
def storeEvents : Store :=
  (createEvent (createEvent (createEvent Store.empty eventLater).2 eventPast).2
    eventSoon).2

/-- Closed witness for C9 at `now = 100`: membership facts obtained through
the theorem. -/
theorem C9_upcoming_events_witness :
    ({ eventSoon with id := 3 } : Event) ∈ getUpcomingEvents storeEvents 100 ∧
    ((100 : Int) < ({ eventLater with id := 1 } : Event).startDate ∧
      ({ eventLater with id := 1 } : Event) ∈ getAllEvents storeEvents) := by
  have h := C9_upcoming_events storeEvents 100
  constructor
  · exact h.2.2.2 _ (by decide) (by decide)
  · exact h.2.2.1 _ (h.2.2.2 _ (by decide) (by decide))

/-! ### Claim C1 — getStudentDetails assembly and dangling tolerance -/

/-- C1: `getStudentDetails` is "not found" when the student or its user row
is missing; otherwise it returns the student and user plus one block per
enrollment of the student whose course assignment resolves — carrying that
enrollment's attendance and grade rows and the assignment's course lookup,
semester and year — while every enrollment whose course assignment does not
resolve is silently omitted (never an error). -/
theorem C1_getStudentDetails (s : Store) (id : Nat) :
    (getStudent s id = none → getStudentDetails s id = none) ∧
    (∀ st, getStudent s id = some st → getUser s st.userId = none →
      getStudentDetails s id = none) ∧
    (∀ st u, getStudent s id = some st → getUser s st.userId = some u →
      ∃ d, getStudentDetails s id = some d ∧ d.student = st ∧ d.user = u ∧
        (∀ e ∈ getEnrollmentsByStudent s id, ∀ ca,
          getCourseAssignment s e.courseAssignmentId = some ca →
          ∃ b ∈ d.enrollments, b.enrollment = e ∧
            b.attendance = getAttendanceByEnrollment s e.id ∧
            b.grades = getGradesByEnrollment s e.id ∧
            b.course = getCourse s ca.courseId ∧
            b.semester = ca.semester ∧ b.year = ca.year) ∧
        (∀ b ∈ d.enrollments, b.enrollment ∈ getEnrollmentsByStudent s id ∧
          (getCourseAssignment s b.enrollment.courseAssignmentId).isSome = true)) := by
  refine ⟨?_, ?_, ?_⟩
  · intro h
    simp only [getStudentDetails, h]
  · intro st hst hu
    simp only [getStudentDetails, hst, hu]
  · intro st u hst hu
    have hd : getStudentDetails s id = some
        { student := st, user := u,
          enrollments := (getEnrollmentsByStudent s id).filterMap fun e =>
            (getCourseAssignment s e.courseAssignmentId).map (enrollmentBlock s e) } := by
      simp only [getStudentDetails, hst, hu]
    refine ⟨_, hd, rfl, rfl, ?_, ?_⟩
    · intro e he ca hca
      refine ⟨enrollmentBlock s e ca, ?_, rfl, rfl, rfl, rfl, rfl, rfl⟩
      exact List.mem_filterMap.mpr ⟨e, he, by rw [hca]; rfl⟩
    · intro b hb
      rcases List.mem_filterMap.mp hb with ⟨e, he, hmap⟩
      rcases Option.map_eq_some'.mp hmap with ⟨ca, hca, hb'⟩
      constructor
      · rw [← hb']
        simpa [enrollmentBlock] using he
      · rw [← hb']
        simp [enrollmentBlock, hca]

/-- The one resolving enrollment of the C1 witness store. -/
def sampleEnrollment1 : Enrollment :=
  { id := 0, studentId := 1, courseAssignmentId := 1, enrollmentDate := 0,
    status := "enrolled" }

/-- An enrollment whose course assignment (id 2) does not exist — the
dangling reference of the C1 scenario. -/
def sampleEnrollment2 : Enrollment :=
  { id := 0, studentId := 1, courseAssignmentId := 2, enrollmentDate := 0,
    status := "enrolled" }

/-- The one course assignment of the C1 witness store. -/
def sampleAssignment : CourseAssignment :=
  { id := 0, courseId := 1, facultyId := 1, semester := "Fall", year := 2023 }

/-- Witness store for C1: user 1, student 1 (→ user 1), course assignment 1,
a resolving enrollment 1 (→ assignment 1) and a dangling enrollment 2
(→ assignment 2, which does not exist). -/
def storeDetails : Store :=
  (createEnrollment
    (createEnrollment
      (createCourseAssignment
        (createStudent storeOneUser sampleStudent).2 sampleAssignment).2
      sampleEnrollment1).2
    sampleEnrollment2).2

/-- The expected `getStudentDetails` result on `storeDetails`: the dangling
enrollment 2 is omitted, the resolving enrollment 1 is present (its course
lookup is `none` — no course row was created — and it has no attendance or
grade rows). -/
def expectedDetails : StudentDetails :=
  { student := { sampleStudent with id := 1 },
    user := { sampleUser with id := 1 },
    enrollments :=
      [{ enrollment := { sampleEnrollment1 with id := 1 },
         course := none,
         facultyMember := none,
         facultyName := none,
         attendance := [],
         grades := [],
         semester := "Fall",
         year := 2023 }] }

/-- Closed witness for C1: absence when the student row is missing, absence
when the user row was deleted out from under the student, and on
`storeDetails` the dangling enrollment is dropped while the valid one stays. -/
theorem C1_getStudentDetails_witness :
    getStudentDetails Store.empty 1 = none ∧
    getStudentDetails (deleteUser storeDetails 1).2 1 = none ∧
    getStudentDetails storeDetails 1 = some expectedDetails ∧
    expectedDetails.enrollments.length = 1 ∧
    (getStudentDetails storeDetails 1).isSome = true := by
  refine ⟨(C1_getStudentDetails Store.empty 1).1 (by decide), ?_, by decide, by decide, ?_⟩
  · exact (C1_getStudentDetails (deleteUser storeDetails 1).2 1).2.1
      { sampleStudent with id := 1 } (by decide) (by decide)
  · rcases (C1_getStudentDetails storeDetails 1).2.2 { sampleStudent with id := 1 }
      { sampleUser with id := 1 } (by decide) (by decide) with ⟨d, hd, -⟩
    rw [hd]
    rfl

/-! ### Claim C2 — dashboard attendance rate and course statistics -/

theorem round1_zero : round1 0 = 0 := by norm_num [round1]

theorem getDashboardStats_attendanceRate (s : Store) :
    (getDashboardStats s).attendanceRate =
      round1 (if 0 < (getAllAttendance s).length then
        ((((getAllAttendance s).filter fun r =>
            r.status == "present" || r.status == "late").length : ℚ)
          / ((getAllAttendance s).length : ℚ) * 100) else 0) := rfl

theorem getDashboardStats_active_percentage (s : Store) :
    (getDashboardStats s).courseStatistics.active.percentage =
      round1 (if 0 < (getAllCourses s).length then
        ((((getAllCourses s).filter fun c => c.status == "active").length : ℚ)
          / ((getAllCourses s).length : ℚ) * 100) else 0) := rfl

theorem getDashboardStats_pending_percentage (s : Store) :
    (getDashboardStats s).courseStatistics.pending.percentage =
      round1 (if 0 < (getAllCourses s).length then
        ((((getAllCourses s).filter fun c => c.status == "pending").length : ℚ)
          / ((getAllCourses s).length : ℚ) * 100) else 0) := rfl

theorem getDashboardStats_archived_percentage (s : Store) :
    (getDashboardStats s).courseStatistics.archived.percentage =
      round1 (if 0 < (getAllCourses s).length then
        ((((getAllCourses s).filter fun c => c.status == "archived").length : ℚ)
          / ((getAllCourses s).length : ℚ) * 100) else 0) := rfl

/-- A course with the given code and status, for the statistics scenarios. -/
def mkCourse (code status : String) : Course :=
  { id := 0, code := code, title := code, description := none, credits := 3,
    department := "General", status := status }

/-- An attendance row with the given status, for the statistics scenarios. -/
def mkAttendanceRow (status : String) : Attendance :=
  { id := 0, enrollmentId := 1, date := 0, status := status, notes := none }

/-- Statistics witness store: 4 courses with statuses
[active, active, pending, archived] and 5 attendance rows with statuses
[present, present, late, absent, excused]. -/
def storeStats : Store :=
  let s1 := (createCourse Store.empty (mkCourse "CS101" "active")).2
  let s2 := (createCourse s1 (mkCourse "BA200" "active")).2
  let s3 := (createCourse s2 (mkCourse "EE201" "pending")).2
  let s4 := (createCourse s3 (mkCourse "HI101" "archived")).2
  let s5 := (createAttendance s4 (mkAttendanceRow "present")).2
  let s6 := (createAttendance s5 (mkAttendanceRow "present")).2
  let s7 := (createAttendance s6 (mkAttendanceRow "late")).2
  let s8 := (createAttendance s7 (mkAttendanceRow "absent")).2
  (createAttendance s8 (mkAttendanceRow "excused")).2

/-- C2: `attendanceRate` is the present-or-late count over the total
attendance count, times 100, rounded to one decimal, and 0 with no
attendance rows; each `courseStatistics` entry holds the count of courses of
that status and its percentage of all courses, rounded to one decimal, 0
with no courses; and the spec's concrete scenarios come out as stated. -/
theorem C2_dashboard_statistics (s : Store) :
    ((getDashboardStats s).attendanceRate =
      if (getAllAttendance s).length = 0 then 0
      else round1 ((((getAllAttendance s).countP fun r =>
          r.status == "present" || r.status == "late") : ℚ)
        / ((getAllAttendance s).length : ℚ) * 100)) ∧
    ((getDashboardStats s).courseStatistics.active.count
      = (getAllCourses s).countP fun c => c.status == "active") ∧
    ((getDashboardStats s).courseStatistics.pending.count
      = (getAllCourses s).countP fun c => c.status == "pending") ∧
    ((getDashboardStats s).courseStatistics.archived.count
      = (getAllCourses s).countP fun c => c.status == "archived") ∧
    ((getDashboardStats s).courseStatistics.active.percentage =
      if (getAllCourses s).length = 0 then 0
      else round1 ((((getAllCourses s).countP fun c => c.status == "active") : ℚ)
        / ((getAllCourses s).length : ℚ) * 100)) ∧
    ((getDashboardStats s).courseStatistics.pending.percentage =
      if (getAllCourses s).length = 0 then 0
      else round1 ((((getAllCourses s).countP fun c => c.status == "pending") : ℚ)
        / ((getAllCourses s).length : ℚ) * 100)) ∧
    ((getDashboardStats s).courseStatistics.archived.percentage =
      if (getAllCourses s).length = 0 then 0
      else round1 ((((getAllCourses s).countP fun c => c.status == "archived") : ℚ)
        / ((getAllCourses s).length : ℚ) * 100)) ∧
    (getDashboardStats storeStats).courseStatistics.active.count = 2 ∧
    (getDashboardStats storeStats).courseStatistics.active.percentage = 50 ∧
    (getDashboardStats storeStats).attendanceRate = 60 ∧
    (getDashboardStats Store.empty).attendanceRate = 0 := by
  refine ⟨?_, ?_, ?_, ?_, ?_, ?_, ?_, by decide, ?_, ?_, ?_⟩
  · rw [getDashboardStats_attendanceRate]
    by_cases h : (getAllAttendance s).length = 0
    · rw [if_pos h, if_neg (by omega), round1_zero]
    · rw [if_pos (Nat.pos_of_ne_zero h), if_neg h, List.countP_eq_length_filter]
  · rw [List.countP_eq_length_filter]; rfl
  · rw [List.countP_eq_length_filter]; rfl
  · rw [List.countP_eq_length_filter]; rfl
  · rw [getDashboardStats_active_percentage]
    by_cases h : (getAllCourses s).length = 0
    · rw [if_pos h, if_neg (by omega), round1_zero]
    · rw [if_pos (Nat.pos_of_ne_zero h), if_neg h, List.countP_eq_length_filter]
  · rw [getDashboardStats_pending_percentage]
    by_cases h : (getAllCourses s).length = 0
    · rw [if_pos h, if_neg (by omega), round1_zero]
    · rw [if_pos (Nat.pos_of_ne_zero h), if_neg h, List.countP_eq_length_filter]
  · rw [getDashboardStats_archived_percentage]
    by_cases h : (getAllCourses s).length = 0
    · rw [if_pos h, if_neg (by omega), round1_zero]
    · rw [if_pos (Nat.pos_of_ne_zero h), if_neg h, List.countP_eq_length_filter]
  · rw [getDashboardStats_active_percentage storeStats]
    have h1 : ((getAllCourses storeStats).filter fun c =>
        c.status == "active").length = 2 := by decide
    have h2 : (getAllCourses storeStats).length = 4 := by decide
    rw [h1, h2]
    norm_num [round1]
  · rw [getDashboardStats_attendanceRate storeStats]
    have h1 : ((getAllAttendance storeStats).filter fun r =>
        r.status == "present" || r.status == "late").length = 3 := by decide
    have h2 : (getAllAttendance storeStats).length = 5 := by decide
    rw [h1, h2]
    norm_num [round1]
  · rw [getDashboardStats_attendanceRate Store.empty]
    have h2 : (getAllAttendance Store.empty).length = 0 := rfl
    rw [h2]
    norm_num [round1]

/-! ### Claim C3 — popular courses ranking -/

theorem studentCountLE_trans : ∀ a b c : PopularCourse,
    studentCountLE a b → studentCountLE b c → studentCountLE a c := by
  intro a b c
  simp only [studentCountLE, decide_eq_true_eq]
  omega

theorem studentCountLE_total : ∀ a b : PopularCourse,
    studentCountLE a b || studentCountLE b a := by
  intro a b
  simp only [studentCountLE, Bool.or_eq_true, decide_eq_true_eq]
  omega

/-- An assignment of the given course, for the ranking scenario. -/
def mkAssignment (courseId : Nat) : CourseAssignment :=
  { id := 0, courseId := courseId, facultyId := 1, semester := "Fall", year := 2023 }

/-- An enrollment in the given assignment, for the ranking scenario. -/
def mkEnrollment (courseAssignmentId : Nat) : Enrollment :=
  { id := 0, studentId := 1, courseAssignmentId := courseAssignmentId,
    enrollmentDate := 0, status := "enrolled" }

/-- Ranking witness store: course A (id 1) with assignments of enrollment
counts [2, 1], course B (id 2) with [4], course C (id 3) with [0]. -/
def storePopular : Store :=
  let s1 := (createCourse Store.empty (mkCourse "A" "active")).2
  let s2 := (createCourse s1 (mkCourse "B" "active")).2
  let s3 := (createCourse s2 (mkCourse "C" "active")).2
  let s4 := (createCourseAssignment s3 (mkAssignment 1)).2
  let s5 := (createCourseAssignment s4 (mkAssignment 1)).2
  let s6 := (createCourseAssignment s5 (mkAssignment 2)).2
  let s7 := (createCourseAssignment s6 (mkAssignment 3)).2
  let s8 := (createEnrollment s7 (mkEnrollment 1)).2
  let s9 := (createEnrollment s8 (mkEnrollment 1)).2
  let s10 := (createEnrollment s9 (mkEnrollment 2)).2
  let s11 := (createEnrollment s10 (mkEnrollment 3)).2
  let s12 := (createEnrollment s11 (mkEnrollment 3)).2
  let s13 := (createEnrollment s12 (mkEnrollment 3)).2
  (createEnrollment s13 (mkEnrollment 3)).2

/-- C3: `popularCourses` annotates every course with the sum over its
assignments of each assignment's enrollment count, sorts descending by that
count with the stable sort (a permutation; ties keep original course order),
and keeps the first 3; in the spec's scenario the result is [B, A, C]. -/
theorem C3_popular_courses (s : Store) :
    ((getDashboardStats s).popularCourses
      = ((coursesWithEnrollments s).mergeSort studentCountLE).take 3) ∧
    (coursesWithEnrollments s = (getAllCourses s).map fun course =>
      { id := course.id, code := course.code, title := course.title,
        studentCount := ((getCourseAssignmentsByCourse s course.id).map fun a =>
          (getEnrollmentsByCourseAssignment s a.id).length).sum }) ∧
    ((coursesWithEnrollments s).mergeSort studentCountLE).Perm
      (coursesWithEnrollments s) ∧
    (getDashboardStats s).popularCourses.Pairwise
      (fun a b => b.studentCount ≤ a.studentCount) ∧
    (getDashboardStats s).popularCourses.length = min 3 (getAllCourses s).length ∧
    (∀ a b : PopularCourse, b.studentCount ≤ a.studentCount →
      List.Sublist [a, b] (coursesWithEnrollments s) →
      List.Sublist [a, b] ((coursesWithEnrollments s).mergeSort studentCountLE)) ∧
    (getDashboardStats storePopular).popularCourses =
      [{ id := 2, code := "B", title := "B", studentCount := 4 },
       { id := 1, code := "A", title := "A", studentCount := 3 },
       { id := 3, code := "C", title := "C", studentCount := 0 }] := by
  refine ⟨rfl, rfl, List.mergeSort_perm _ _, ?_, ?_, ?_, ?_⟩
  · have h := List.sorted_mergeSort
      studentCountLE_trans studentCountLE_total (coursesWithEnrollments s)
    have h2 := List.Pairwise.sublist (List.take_sublist 3 _) h
    exact h2.imp fun hab => by simpa [studentCountLE] using hab
  · show (((coursesWithEnrollments s).mergeSort studentCountLE).take 3).length = _
    rw [List.length_take, List.length_mergeSort]
    simp [coursesWithEnrollments]
  · intro a b hab hsub
    exact List.pair_sublist_mergeSort studentCountLE_trans studentCountLE_total
      (by simpa [studentCountLE] using hab) hsub
  · show ((coursesWithEnrollments storePopular).mergeSort studentCountLE).take 3 = _
    have hc : coursesWithEnrollments storePopular =
        [{ id := 1, code := "A", title := "A", studentCount := 3 },
         { id := 2, code := "B", title := "B", studentCount := 4 },
         { id := 3, code := "C", title := "C", studentCount := 0 }] := by decide
    rw [hc]
    simp [List.mergeSort, studentCountLE]

/-- Closed witness for C3: the stability conjunct applied to the witness
store at the two concrete list elements A and C. -/
theorem C3_popular_courses_witness :
    List.Sublist
      [{ id := 1, code := "A", title := "A", studentCount := 3 },
       { id := 3, code := "C", title := "C", studentCount := 0 }]
      ((coursesWithEnrollments storePopular).mergeSort studentCountLE) := by
  have h := (C3_popular_courses storePopular).2.2.2.2.2.1
    { id := 1, code := "A", title := "A", studentCount := 3 }
    { id := 3, code := "C", title := "C", studentCount := 0 }
  exact h (by decide) (by decide)

end MemStorage
